import Mathlib

/-!
Verification development for the SimpSniper subreddit-profile derivation
pipeline.  The definitions below are a shallow embedding of the two
implementations of the pipeline:

* `SubredditScraper` (server side, `snoowrap`-based class): `parseRules`,
  `generateRulesSummary`, `calculateEngagement`, `analyzeBestPostingTimes`,
  `inferNicheTags`;
* `ClientSubredditScraper` (`src/lib/clientSubredditScraper.js`): the
  browser-side near-duplicate (prefixed `client` here where the two differ).

JavaScript regular-expression matching (all patterns are `/.../i` and are
used through `String.match` / `RegExp.test`, i.e. leftmost-first matching)
is compiled by hand into deterministic scanners over `List Char`.  For the
specific patterns of this code base, backtracking never changes the
outcome (each literal's first character is neither a digit nor whitespace
nor a dot-excluded character), so each pattern admits a direct scan; the
scanners below implement exactly the leftmost-first semantics of each
source pattern.  JS numbers are modelled as `Int`/`Nat`/`ℚ` (the values
involved are exact in IEEE doubles in the ranges that matter); `NaN` and
array-out-of-bounds `undefined`, which arise in the client engagement
calculator on an empty sample, are modelled as `none : Option _`.
-/

namespace SimpSniper

/-- JS regex `\d`: the ASCII digits. -/
def jsDigit (c : Char) : Bool := '0' ≤ c && c ≤ '9'

/-- JS regex `\s`: ECMAScript WhiteSpace plus LineTerminator characters. -/
def jsSpace (c : Char) : Bool :=
  c = ' ' || c = '\t' || c = '\n' || c = '\r' || c = '\x0b' || c = '\x0c' ||
  c = ' ' || c = ' ' || (' ' ≤ c && c ≤ ' ') ||
  c = ' ' || c = ' ' || c = ' ' || c = ' ' ||
  c = '　' || c = '﻿'

/-- JS regex `.` (without the `s` flag): any character except a LineTerminator. -/
def jsDot (c : Char) : Bool :=
  !(c = '\n' || c = '\r' || c = ' ' || c = ' ')

/-- Literal-prefix test: does `l` start with the pattern `p`? -/
def headIs : List Char → List Char → Bool
  | [], _ => true
  | _ :: _, [] => false
  | p :: ps, c :: cs => p = c && headIs ps cs

/-- Model of `parseInt` on a captured digit string (the captures here are pure
digit runs, so this is just decimal value). -/
def digitsVal (l : List Char) : Nat :=
  l.foldl (fun n c => n * 10 + (c.toNat - 48)) 0

/-- Case-insensitive (`/i`) matching is modelled by lowering the subject text once; all the
pattern literals are lower-case ASCII, and the captured strings are digit
runs, which lowering does not touch. -/
def lowerChars (t : String) : List Char := t.toList.map Char.toLower

/-- Leftmost-first scan driver for a pattern with a capture: try the
pattern anchored at every position, left to right. -/
def scanOpt {α : Type} (f : List Char → Option α) : List Char → Option α
  | [] => f []
  | c :: t =>
    match f (c :: t) with
    | some v => some v
    | none => scanOpt f t

/-- Leftmost scan driver for a `RegExp.test`-style pattern. -/
def scanB (f : List Char → Bool) : List Char → Bool
  | [] => f []
  | c :: t => f (c :: t) || scanB f t

/-- Lazy gap `.*?` followed by `(\d+)`: walk forward through `.`-matchable
characters to the first digit and capture the maximal digit run there
(`(\d+)` is greedy; lazier expansions of `.*?` are preferred, so the first
reachable digit starts the capture). -/
def digitsAfterDots : List Char → Option Nat
  | [] => none
  | c :: t =>
    if jsDigit c then some (digitsVal ((c :: t).takeWhile jsDigit))
    else if jsDot c then digitsAfterDots t
    else none

/-- Lazy gap `.*?` followed by a literal: is the literal reachable through
`.`-matchable characters? -/
def reachLit (pat : List Char) : List Char → Bool
  | [] => headIs pat []
  | c :: t => headIs pat (c :: t) || (jsDot c && reachLit pat t)

/-- Anchored `/(\d+)\s*(?:combined\s*)?karma/i`: digits, optional
whitespace, optionally the literal `combined` plus whitespace, then
`karma`.  The optional group is tried with `combined` first, then empty,
exactly as JS does. -/
def karma1At (l : List Char) : Option Nat :=
  let ds := l.takeWhile jsDigit
  if ds.isEmpty then none
  else
    let r1 := (l.dropWhile jsDigit).dropWhile jsSpace
    if (headIs "combined".toList r1 &&
          headIs "karma".toList ((r1.drop 8).dropWhile jsSpace)) ||
        headIs "karma".toList r1 then
      some (digitsVal ds)
    else none

/-- Pattern 1 of the karma extractor: `/(\d+)\s*(?:combined\s*)?karma/i`. -/
def karmaPattern1 (t : String) : Option Nat := scanOpt karma1At (lowerChars t)

/-- Anchored `/karma.*?(\d+)/i` at a given position (the literal `karma`
then a lazy gap to the first digit run). -/
def karma2At (l : List Char) : Option Nat :=
  if headIs "karma".toList l then digitsAfterDots (l.drop 5) else none

/-- Pattern 2 of the karma extractor: `/karma.*?(\d+)/i`. -/
def karmaPattern2 (t : String) : Option Nat := scanOpt karma2At (lowerChars t)

/-- The tail of `/minimum.*?(\d+).*?karma/i`: lazy gap to the first digit
run, then `karma` must be reachable after the run.  (Backtracking the
greedy `(\d+)` or extending the first `.*?` past the run cannot succeed
when this fails: `karma` does not start with a digit, and digits are
`.`-matchable, so reachability from any later point implies reachability
from the end of the first run.) -/
def karma3Gap : List Char → Option Nat
  | [] => none
  | c :: t =>
    if jsDigit c then
      let ds := (c :: t).takeWhile jsDigit
      if reachLit "karma".toList ((c :: t).dropWhile jsDigit) then
        some (digitsVal ds)
      else none
    else if jsDot c then karma3Gap t
    else none

/-- Anchored `/minimum.*?(\d+).*?karma/i` at a position. -/
def karma3At (l : List Char) : Option Nat :=
  if headIs "minimum".toList l then karma3Gap (l.drop 7) else none

/-- Pattern 3 of the karma extractor: `/minimum.*?(\d+).*?karma/i`. -/
def karmaPattern3 (t : String) : Option Nat := scanOpt karma3At (lowerChars t)

/-- Anchored `/(\d+)\s*days?\s*old/i`: digits, whitespace, `day`, an
optional `s` (taken when present — `old` cannot begin with `s`), more
whitespace, `old`. -/
def age1At (l : List Char) : Option Nat :=
  let ds := l.takeWhile jsDigit
  if ds.isEmpty then none
  else
    let r1 := (l.dropWhile jsDigit).dropWhile jsSpace
    if headIs "day".toList r1 then
      let r2 := r1.drop 3
      let r3 := if headIs "s".toList r2 then r2.drop 1 else r2
      if headIs "old".toList (r3.dropWhile jsSpace) then some (digitsVal ds)
      else none
    else none

/-- Pattern 1 of the account-age extractor: `/(\d+)\s*days?\s*old/i`. -/
def agePattern1 (t : String) : Option Nat := scanOpt age1At (lowerChars t)

/-- The tail of `/account.*?(\d+)\s*days/i`: the lazy gap tries every
`.`-reachable digit position in order; at each, the greedy digit run must
be followed by `\s*days`. -/
def age2Gap : List Char → Option Nat
  | [] => none
  | c :: t =>
    if jsDigit c then
      let ds := (c :: t).takeWhile jsDigit
      if headIs "days".toList (((c :: t).dropWhile jsDigit).dropWhile jsSpace) then
        some (digitsVal ds)
      else age2Gap t
    else if jsDot c then age2Gap t
    else none

/-- Anchored `/account.*?(\d+)\s*days/i` at a position. -/
def age2At (l : List Char) : Option Nat :=
  if headIs "account".toList l then age2Gap (l.drop 7) else none

/-- Pattern 2 of the account-age extractor: `/account.*?(\d+)\s*days/i`. -/
def agePattern2 (t : String) : Option Nat := scanOpt age2At (lowerChars t)

/-- Anchored `/(\d+)\s*day.*?account/i` at a position. -/
def age3At (l : List Char) : Option Nat :=
  let ds := l.takeWhile jsDigit
  if ds.isEmpty then none
  else
    let r1 := (l.dropWhile jsDigit).dropWhile jsSpace
    if headIs "day".toList r1 && reachLit "account".toList (r1.drop 3) then
      some (digitsVal ds)
    else none

/-- Pattern 3 of the account-age extractor: `/(\d+)\s*day.*?account/i`. -/
def agePattern3 (t : String) : Option Nat := scanOpt age3At (lowerChars t)

/-- Anchored `/verif(y|ied|ication)/i` at a position (alternatives in
source order). -/
def verifAt (l : List Char) : Bool :=
  headIs "verif".toList l &&
    (headIs "y".toList (l.drop 5) || headIs "ied".toList (l.drop 5) ||
      headIs "ication".toList (l.drop 5))

/-- The test `/verif(y|ied|ication)/i.test(rulesText)`. -/
def verifTest (t : String) : Bool := scanB verifAt (lowerChars t)

/-- Anchored `/no\s*(external\s*)?links?/i` at a position: `no`,
whitespace, optionally `external` plus whitespace, then `link` (the
trailing `s?` is irrelevant for a test).  The optional group is tried
with `external` first, then empty. -/
def link1At (l : List Char) : Bool :=
  headIs "no".toList l &&
    (let r := (l.drop 2).dropWhile jsSpace
     (headIs "external".toList r &&
        headIs "link".toList ((r.drop 8).dropWhile jsSpace)) ||
       headIs "link".toList r)

/-- The test `/no\s*(external\s*)?links?/i.test(rulesText)`. -/
def linkTest1 (t : String) : Bool := scanB link1At (lowerChars t)

/-- Anchored `/links?\s*(only\s*)?(in\s*)?profile/i` at a position.  Each
optional literal is committed when present: none of the follow-up
literals (`only`, `in`, `profile`) can begin where a taken branch's
remainder begins, so the empty alternative can never succeed after the
non-empty one fails. -/
def link2At (l : List Char) : Bool :=
  headIs "link".toList l &&
    (let r1 := l.drop 4
     let r2 := if headIs "s".toList r1 then r1.drop 1 else r1
     let r3 := r2.dropWhile jsSpace
     let r4 := if headIs "only".toList r3 then (r3.drop 4).dropWhile jsSpace else r3
     let r5 := if headIs "in".toList r4 then (r4.drop 2).dropWhile jsSpace else r4
     headIs "profile".toList r5)

/-- The test `/links?\s*(only\s*)?(in\s*)?profile/i.test(rulesText)`. -/
def linkTest2 (t : String) : Bool := scanB link2At (lowerChars t)

/-- Anchored `/(\d+)\s*(?:posts?|submissions?)\s*per\s*(\d+)?\s*(hour|day)/i`
at a position.  The result is (capture 1, optional capture 2, capture 3),
with the unit rendered as `true` for `day` and `false` for `hour`. -/
def freqAt (l : List Char) : Option (Nat × Option Nat × Bool) :=
  let ds := l.takeWhile jsDigit
  if ds.isEmpty then none
  else
    let r1 := (l.dropWhile jsDigit).dropWhile jsSpace
    let r2? : Option (List Char) :=
      if headIs "post".toList r1 then
        some (let x := r1.drop 4; if headIs "s".toList x then x.drop 1 else x)
      else if headIs "submission".toList r1 then
        some (let x := r1.drop 10; if headIs "s".toList x then x.drop 1 else x)
      else none
    match r2? with
    | none => none
    | some r2 =>
      let r3 := r2.dropWhile jsSpace
      if headIs "per".toList r3 then
        let r4 := (r3.drop 3).dropWhile jsSpace
        let ms := r4.takeWhile jsDigit
        let m? : Option Nat := if ms.isEmpty then none else some (digitsVal ms)
        let r5 := (r4.dropWhile jsDigit).dropWhile jsSpace
        if headIs "hour".toList r5 then some (digitsVal ds, m?, false)
        else if headIs "day".toList r5 then some (digitsVal ds, m?, true)
        else none
      else none

/-- The match `rulesText.match(/(\d+)\s*(?:posts?|submissions?)\s*per\s*(\d+)?\s*(hour|day)/i)`. -/
def freqMatch (t : String) : Option (Nat × Option Nat × Bool) :=
  scanOpt freqAt (lowerChars t)

/-- First-match-wins loop over an ordered pattern list, as in
`for (const pattern of karmaPatterns) { const match = ...; if (match) { ...; break } }`. -/
def firstSome (fs : List (String → Option Nat)) (t : String) : Option Nat :=
  match fs with
  | [] => none
  | f :: rest =>
    match f t with
    | some v => some v
    | none => firstSome rest t

/-- The requirements object assembled by the server-side
`SubredditScraper.parseRules` (the fields this development reasons about;
`allows_links_in_profile_only` is `Option Bool` because the JS object has
no such field in its initializer — `none` models the absent/undefined
field, `some true` the assignment in the profile-links branch). -/
structure Requirements where
  min_karma : Option Nat
  min_account_age_days : Option Nat
  requires_verification : Bool
  allows_links_in_post : Bool
  allows_links_in_comments : Bool
  allows_links_in_profile_only : Option Bool
  posting_frequency_hours : Option Nat
  posting_frequency_limit : Option String
  required_flairs : List String
  rules_raw : String
  rules_summary : String
  deriving DecidableEq, Repr

/-- Server-side `SubredditScraper.generateRulesSummary`, split into the
ordered candidate lines: one line per requirement whose source `if`
condition (JS truthiness) holds, in source order karma → account age →
verification → posting limit → link restriction → flair. -/
def summaryParts (r : Requirements) : List String :=
  (match r.min_karma with
    | some k => if k ≠ 0 then ["Need " ++ toString k ++ " karma"] else []
    | none => []) ++
  (match r.min_account_age_days with
    | some d => if d ≠ 0 then ["Account must be " ++ toString d ++ "+ days old"] else []
    | none => []) ++
  (if r.requires_verification then ["Verification required"] else []) ++
  (match r.posting_frequency_limit with
    | some s => if s ≠ "" then ["Posting limit: " ++ s] else []
    | none => []) ++
  (if r.allows_links_in_post then [] else ["No links in posts (profile only)"]) ++
  (if r.required_flairs.length > 0 then ["Must use flair"] else [])

/-- Server-side `SubredditScraper.generateRulesSummary`:
`parts.length > 0 ? parts.join('\n') : 'No special requirements found'`. -/
def generateRulesSummary (r : Requirements) : String :=
  let parts := summaryParts r
  if parts.isEmpty then "No special requirements found"
  else String.intercalate "\n" parts

/-- Server-side `SubredditScraper.parseRules`, given the concatenated
rules text and the externally fetched flair-template texts
(`flairs.map(f => f.text).filter(Boolean)` keeps the non-empty texts). -/
def parseRules (rulesText : String) (flairTexts : List String) : Requirements :=
  let mk := firstSome [karmaPattern1, karmaPattern2, karmaPattern3] rulesText
  let ma := firstSome [agePattern1, agePattern2, agePattern3] rulesText
  let l1 := linkTest1 rulesText
  let l2 := linkTest2 rulesText
  let post1 := if l1 then false else true
  let post2 := if l2 then false else post1
  let comm1 := if l1 then false else true
  let comm2 := if l2 then false else comm1
  let profileOnly : Option Bool := if l2 then some true else none
  let freq := freqMatch rulesText
  let pfh : Option Nat :=
    freq.map (fun m => if m.2.2 then 24 else m.2.1.getD 1)
  let pfl : Option String :=
    pfh.map (fun h => "1 per " ++ toString h ++ " hours")
  let base : Requirements :=
    { min_karma := mk
      min_account_age_days := ma
      requires_verification := verifTest rulesText
      allows_links_in_post := post2
      allows_links_in_comments := comm2
      allows_links_in_profile_only := profileOnly
      posting_frequency_hours := pfh
      posting_frequency_limit := pfl
      required_flairs := flairTexts.filter (fun s => s ≠ "")
      rules_raw := rulesText
      rules_summary := "" }
  { base with rules_summary := generateRulesSummary base }

/-- The requirements object assembled by the browser-side
`ClientSubredditScraper.parseRules` (no flair handling; again
`allows_links_in_profile_only := none` models the field being absent from
the initializer). -/
structure ClientRequirements where
  min_karma : Option Nat
  min_account_age_days : Option Nat
  requires_verification : Bool
  allows_links_in_post : Bool
  allows_links_in_comments : Bool
  allows_links_in_profile_only : Option Bool
  posting_frequency_hours : Option Nat
  posting_frequency_limit : Option String
  rules_raw : String
  rules_summary : String
  deriving DecidableEq, Repr

/-- Browser-side `ClientSubredditScraper.parseRules`.  It differs from the
server version in trying only the single pattern
`/(\d+)\s*(?:combined\s*)?karma/i` for karma and only
`/(\d+)\s*days?\s*old/i` for account age, and in building its summary
inline without a flair line. -/
def clientParseRules (rulesText : String) : ClientRequirements :=
  let mk := karmaPattern1 rulesText
  let ma := agePattern1 rulesText
  let l1 := linkTest1 rulesText
  let l2 := linkTest2 rulesText
  let post1 := if l1 then false else true
  let post2 := if l2 then false else post1
  let comm1 := if l1 then false else true
  let comm2 := if l2 then false else comm1
  let profileOnly : Option Bool := if l2 then some true else none
  let freq := freqMatch rulesText
  let pfh : Option Nat :=
    freq.map (fun m => if m.2.2 then 24 else m.2.1.getD 1)
  let pfl : Option String :=
    pfh.map (fun h => "1 per " ++ toString h ++ " hours")
  let parts : List String :=
    (match mk with
      | some k => if k ≠ 0 then ["Need " ++ toString k ++ " karma"] else []
      | none => []) ++
    (match ma with
      | some d => if d ≠ 0 then ["Account must be " ++ toString d ++ "+ days old"] else []
      | none => []) ++
    (if verifTest rulesText then ["Verification required"] else []) ++
    (match pfl with
      | some s => if s ≠ "" then ["Posting limit: " ++ s] else []
      | none => []) ++
    (if post2 then [] else ["No links in posts (profile only)"])
  { min_karma := mk
    min_account_age_days := ma
    requires_verification := verifTest rulesText
    allows_links_in_post := post2
    allows_links_in_comments := comm2
    allows_links_in_profile_only := profileOnly
    posting_frequency_hours := pfh
    posting_frequency_limit := pfl
    rules_raw := rulesText
    rules_summary :=
      if parts.isEmpty then "No special requirements found"
      else String.intercalate "\n" parts }

/-- A sampled post as consumed by the engagement calculator: its score
and its comment count (`post.score`, `post.num_comments`). -/
structure JPost where
  score : Int
  num_comments : Int
  deriving DecidableEq, Repr

/-- Output of the server-side `SubredditScraper.calculateEngagement`.
All four JS numbers are exact here, so they are modelled in `ℚ`. -/
structure Engagement where
  avg_upvotes : ℚ
  median_upvotes : ℚ
  avg_comments : ℚ
  engagement_score : ℚ
  deriving DecidableEq, Repr

/-- Server-side `SubredditScraper.calculateEngagement` on an
already-fetched post sample.  `upvotes.sort((a, b) => a - b)` is a stable
ascending sort, modelled by `insertionSort (· ≤ ·)`;
`[Math.floor(upvotes.length / 2)]` is index `n / 2` (in range whenever
the guarded branch is taken, so `getD _ 0` never falls back). -/
def calculateEngagement (posts : List JPost) : Engagement :=
  let upvotes : List Int := posts.map (·.score)
  let comments : List Int := posts.map (·.num_comments)
  let avgUpvotes : ℚ :=
    if upvotes.length > 0 then (upvotes.sum : ℚ) / upvotes.length else 0
  let medianUpvotes : ℚ :=
    if upvotes.length > 0 then
      ((upvotes.insertionSort (· ≤ ·)).getD (upvotes.length / 2) 0 : ℤ)
    else 0
  let avgComments : ℚ :=
    if comments.length > 0 then (comments.sum : ℚ) / comments.length else 0
  { avg_upvotes := avgUpvotes
    median_upvotes := medianUpvotes
    avg_comments := avgComments
    engagement_score := avgUpvotes * (7 / 10) + avgComments * (3 / 10) }

/-- Output of the browser-side `calculateEngagement`.  The client version
has no empty-sample guard: on an empty sample the averages are the IEEE
`0 / 0 = NaN` and the median is the out-of-bounds read `undefined`; both
are modelled as `none`. -/
structure ClientEngagement where
  avg_upvotes : Option ℚ
  median_upvotes : Option ℤ
  avg_comments : Option ℚ
  engagement_score : Option ℚ
  deriving DecidableEq, Repr

/-- JS number division restricted to the shapes that occur here: a finite
quotient when the denominator is non-zero, `none` for the `0 / 0 = NaN`
(and would-be infinite) cases. -/
def jsDiv (a b : ℚ) : Option ℚ := if b = 0 then none else some (a / b)

/-- Browser-side `ClientSubredditScraper.calculateEngagement` on an
already-fetched post sample (the `catch` branch, taken only when the
fetch itself throws, is not part of this pure computation).
`sortedUpvotes[...]` is modelled with `get?`: `none` is the JS
`undefined` of an out-of-bounds read; `NaN * 0.7 + NaN * 0.3 = NaN`
propagates as `none`. -/
def clientCalculateEngagement (posts : List JPost) : ClientEngagement :=
  let upvotes : List Int := posts.map (·.score)
  let comments : List Int := posts.map (·.num_comments)
  let avgUpvotes := jsDiv (upvotes.sum : ℚ) upvotes.length
  let sortedUpvotes := upvotes.insertionSort (· ≤ ·)
  let medianUpvotes := sortedUpvotes.get? (upvotes.length / 2)
  let avgComments := jsDiv (comments.sum : ℚ) comments.length
  { avg_upvotes := avgUpvotes
    median_upvotes := medianUpvotes
    avg_comments := avgComments
    engagement_score :=
      match avgUpvotes, avgComments with
      | some a, some c => some (a * (7 / 10) + c * (3 / 10))
      | _, _ => none }

/-- A sampled post as consumed by `analyzeBestPostingTimes`, after step 1
of the algorithm: the code derives `day` (via the fixed
`['sunday', ..., 'saturday'][date.getDay()]` table, bijective with
`Fin 7`) and `hour` (`date.getHours()`, 0–23) from the post's creation
timestamp in the runtime's local time zone; the derivation itself is
environment-dependent and is taken as input here. -/
structure TPost where
  day : Fin 7
  hour : Nat
  score : Int
  deriving DecidableEq, Repr

/-- Appending to a JS object used as an insertion-ordered multimap:
`if (!obj[k]) obj[k] = []; obj[k].push(v)` — a new key goes to the end,
an existing key's list grows at its end. -/
def pushEntry {κ β : Type} [DecidableEq κ] :
    List (κ × List β) → κ → β → List (κ × List β)
  | [], k, v => [(k, [v])]
  | (k', vs) :: t, k, v =>
    if k = k' then (k', vs ++ [v]) :: t else (k', vs) :: pushEntry t k v

/-- The `performanceByTime` object: scores grouped by `(day, hour)` key in
first-occurrence order (the JS object's keys are the strings
`day + "_" + hour`, which are in bijection with the pairs since day names
contain no underscore and hours round-trip through `parseInt`). -/
def performanceByTime (posts : List TPost) : List ((Fin 7 × Nat) × List Int) :=
  posts.foldl (fun acc p => pushEntry acc (p.day, p.hour) p.score) []

/-- The mean `scores.reduce((a, b) => a + b, 0) / scores.length` (every group is
non-empty by construction, so the division is by a positive length). -/
def avgScore (scores : List Int) : ℚ := (scores.sum : ℚ) / scores.length

/-- The `bestTimes` object before the top-3 pass: for each day in
first-occurrence order, its `{hour, score}` records in group order. -/
def dayGroups (posts : List TPost) : List (Fin 7 × List (Nat × ℚ)) :=
  (performanceByTime posts).foldl
    (fun acc e => pushEntry acc e.1.1 (e.1.2, avgScore e.2)) []

/-- Descending-by-mean-score comparison used by
`.sort((a, b) => b.score - a.score)`. -/
def byScoreDesc (a b : Nat × ℚ) : Prop := b.2 ≤ a.2

instance : DecidableRel byScoreDesc := fun a b =>
  inferInstanceAs (Decidable (b.2 ≤ a.2))

instance : IsTotal (Nat × ℚ) byScoreDesc := ⟨fun a b => le_total b.2 a.2⟩

instance : IsTrans (Nat × ℚ) byScoreDesc :=
  ⟨fun _ _ _ h h' => le_trans h' h⟩

/-- The per-day top-3 pass:
`.sort((a, b) => b.score - a.score).slice(0, 3).map(h => h.hour)`.
JS `Array.prototype.sort` is stable, and a stable sort's output is
determined by the comparator, so the stable `insertionSort` is an exact
model. -/
def topHours (es : List (Nat × ℚ)) : List Nat :=
  ((es.insertionSort byScoreDesc).take 3).map Prod.fst

/-- Embedding of `SubredditScraper.analyzeBestPostingTimes` on an already-fetched and
already-localized post sample (both implementations are identical from
this point on): the day-keyed mapping of up to three best hours. -/
def analyzeBestPostingTimes (posts : List TPost) : List (Fin 7 × List Nat) :=
  (dayGroups posts).map (fun e => (e.1, topHours e.2))

/-- The `{hour, mean score}` records computed for a given day (empty when
the day never occurs in the sample): the reference point for "top hours
of that day ranked by mean score". -/
def dayMeans (posts : List TPost) (d : Fin 7) : List (Nat × ℚ) :=
  ((dayGroups posts).lookup d).getD []

/-- The controlled niche vocabulary of `inferNicheTags`, verbatim from
the source. -/
def nicheKeywords : List (String × List String) :=
  [("feet", ["feet", "foot", "toes", "soles"]),
   ("petite", ["petite", "tiny", "small"]),
   ("bbw", ["bbw", "curvy", "thick", "chubby"]),
   ("latina", ["latina", "hispanic"]),
   ("asian", ["asian", "japanese", "korean"]),
   ("ebony", ["ebony", "black"]),
   ("blonde", ["blonde", "blond"]),
   ("redhead", ["redhead", "ginger"]),
   ("brunette", ["brunette"]),
   ("milf", ["milf", "mom", "mature"]),
   ("cosplay", ["cosplay", "costume"]),
   ("tattoo", ["tattoo", "inked", "alt"]),
   ("lingerie", ["lingerie", "underwear"]),
   ("amateur", ["amateur", "homemade", "real"]),
   ("fitness", ["fitness", "fit", "athletic"]),
   ("goth", ["goth", "emo"]),
   ("lesbian", ["lesbian"])]

/-- Substring test `text.includes(kw)`: plain substring containment, no word boundaries. -/
def containsSub (needle : List Char) : List Char → Bool
  | [] => headIs needle []
  | c :: t => headIs needle (c :: t) || containsSub needle t

/-- The lower-cased haystack
`` `${display_name} ${public_description || ''}`.toLowerCase() `` (a
null/undefined/empty description contributes the empty string). -/
def nicheText (displayName : String) (publicDescription : Option String) :
    List Char :=
  lowerChars (displayName ++ " " ++ publicDescription.getD "")

/-- Does any keyword of one vocabulary entry occur in the text?
(`keywords.some(kw => text.includes(kw))`). -/
def tagMatches (kws : List String) (text : List Char) : Bool :=
  kws.any (fun kw => containsSub kw.toList text)

/-- Embedding of `inferNicheTags` (identical in both implementations): collect the
tags whose keyword list matches, else the singleton `["general"]`. -/
def inferNicheTags (displayName : String) (publicDescription : Option String) :
    List String :=
  let text := nicheText displayName publicDescription
  let tags := (nicheKeywords.filter (fun e => tagMatches e.2 text)).map Prod.fst
  if tags.isEmpty then ["general"] else tags

/-- The tags collected by the matching loop of `inferNicheTags`, before
the `["general"]` fallback. -/
def matchedTags (displayName : String) (publicDescription : Option String) :
    List String :=
  (nicheKeywords.filter
    (fun e => tagMatches e.2 (nicheText displayName publicDescription))).map
      Prod.fst

/-- The spec's ordered karma extraction: the first integer captured by
the first of the three patterns ("N (combined) karma", "karma ... N",
"minimum ... N ... karma") that matches, null if none matches. -/
def firstKarmaCapture (t : String) : Option Nat :=
  match karmaPattern1 t with
  | some v => some v
  | none =>
    match karmaPattern2 t with
    | some v => some v
    | none => karmaPattern3 t

/-- C1: on an empty post sample the browser-side engagement calculator
does NOT return four zeros: both averages are the IEEE `0 / 0 = NaN` and
the median is the out-of-bounds `undefined` (all modelled `none`), while
the server-side calculator — and the spec — give exact numeric zeros. -/
theorem client_calculateEngagement_empty_diverges :
    clientCalculateEngagement [] =
      { avg_upvotes := none, median_upvotes := none, avg_comments := none,
        engagement_score := none } ∧
    calculateEngagement [] =
      { avg_upvotes := 0, median_upvotes := 0, avg_comments := 0,
        engagement_score := 0 } := by
  constructor
  · simp [clientCalculateEngagement, jsDiv]
  · simp [calculateEngagement]

/-- C9: for every post sample, the engagement calculator's output
satisfies `engagementScore = 0.7 * avgUpvotes + 0.3 * avgComments`
exactly (in the empty case all three are 0 and the identity still
holds). -/
theorem engagement_score_formula (posts : List JPost) :
    (calculateEngagement posts).engagement_score =
      7 / 10 * (calculateEngagement posts).avg_upvotes +
        3 / 10 * (calculateEngagement posts).avg_comments := by
  simp only [calculateEngagement]
  ring

/-- C2 (counterexample): on the text `"karma 500"` the first of the three
ordered patterns that matches is the second one, capturing 500, yet the
browser-side extractor — which tries only the first pattern — leaves
`min_karma` null.  So "the karma-minimum extractor tries exactly three
patterns" is false of the client implementation. -/
theorem karma_extractor_counterexample :
    karmaPattern1 "karma 500" = none ∧
    karmaPattern2 "karma 500" = some 500 ∧
    firstKarmaCapture "karma 500" = some 500 ∧
    (clientParseRules "karma 500").min_karma = none :=
  ⟨rfl, rfl, rfl, rfl⟩

/-- C2 (amended): the server-side extractor tries the three patterns in
the stated order and takes the first capture; the client-side extractor
tries only the first pattern (`/(\d+)\s*(?:combined\s*)?karma/i`). -/
theorem karma_extractor_amended :
    (∀ t flairs, (parseRules t flairs).min_karma = firstKarmaCapture t) ∧
    (∀ t, (clientParseRules t).min_karma = karmaPattern1 t) := by
  constructor
  · intro t flairs
    show firstSome [karmaPattern1, karmaPattern2, karmaPattern3] t =
      firstKarmaCapture t
    simp only [firstSome, firstKarmaCapture]
    cases karmaPattern1 t <;> cases karmaPattern2 t <;>
      cases karmaPattern3 t <;> rfl
  · intro t
    rfl

/-- C4: whenever the posting-frequency pattern matches with captures
(N, M?, unit), the stored hours are 24 for unit `day` (whatever M is) and
`M` (default 1) for unit `hour`, and the rendered limit is
`"1 per {hours} hours"`; when it does not match, both fields stay null. -/
theorem posting_frequency_spec (t : String) (flairs : List String) :
    (∀ n m u, freqMatch t = some (n, m, u) →
      (parseRules t flairs).posting_frequency_hours =
          some (if u then 24 else m.getD 1) ∧
      (parseRules t flairs).posting_frequency_limit =
          some ("1 per " ++ toString (if u then (24 : Nat) else m.getD 1) ++
            " hours")) ∧
    (freqMatch t = none →
      (parseRules t flairs).posting_frequency_hours = none ∧
      (parseRules t flairs).posting_frequency_limit = none) := by
  constructor
  · intro n m u h
    constructor <;> simp [parseRules, h]
  · intro h
    constructor <;> simp [parseRules, h]

/-- C4 witness: the spec scenario `"Submit 1 post per day maximum"`
matches with unit `day` and no M, giving 24 hours and the string
`"1 per 24 hours"`. -/
theorem posting_frequency_spec_witness :
    freqMatch "Submit 1 post per day maximum" = some (1, none, true) ∧
    (parseRules "Submit 1 post per day maximum" []).posting_frequency_hours =
      some 24 ∧
    (parseRules "Submit 1 post per day maximum" []).posting_frequency_limit =
      some "1 per 24 hours" := by
  have h := (posting_frequency_spec "Submit 1 post per day maximum" []).1
    1 none true rfl
  exact ⟨rfl, h.1, h.2⟩

/-- C5: matching "no [external] link(s)" forces both link-permission
flags false; matching "link(s) [only] [in] profile" forces both false and
sets the profile-only marker; and any output with the profile-only marker
set has both flags false. -/
theorem link_policy_spec (t : String) (flairs : List String) :
    (linkTest1 t = true →
      (parseRules t flairs).allows_links_in_post = false ∧
      (parseRules t flairs).allows_links_in_comments = false) ∧
    (linkTest2 t = true →
      (parseRules t flairs).allows_links_in_post = false ∧
      (parseRules t flairs).allows_links_in_comments = false ∧
      (parseRules t flairs).allows_links_in_profile_only = some true) ∧
    ((parseRules t flairs).allows_links_in_profile_only = some true →
      (parseRules t flairs).allows_links_in_post = false ∧
      (parseRules t flairs).allows_links_in_comments = false) := by
  cases h1 : linkTest1 t <;> cases h2 : linkTest2 t <;>
    simp [parseRules, h1, h2]

/-- C5 witness: the spec scenario
`"No external links. Links only in profile."` trips both link rules and
yields the claimed flag combination. -/
theorem link_policy_spec_witness :
    (parseRules "No external links. Links only in profile."
        []).allows_links_in_post = false ∧
    (parseRules "No external links. Links only in profile."
        []).allows_links_in_comments = false ∧
    (parseRules "No external links. Links only in profile."
        []).allows_links_in_profile_only = some true := by
  have h := (link_policy_spec "No external links. Links only in profile."
    []).2.1 rfl
  exact ⟨h.1, h.2.1, h.2.2⟩

/-- C10: the profile-only field is absent (undefined, `none`) from the
parser output exactly when the "link(s) [only] [in] profile" pattern does
not match, in both implementations; when the pattern matches it is
assigned the literal `true`. -/
theorem profile_only_field_spec (t : String) (flairs : List String) :
    (linkTest2 t = false →
      (clientParseRules t).allows_links_in_profile_only = none ∧
      (parseRules t flairs).allows_links_in_profile_only = none) ∧
    (linkTest2 t = true →
      (clientParseRules t).allows_links_in_profile_only = some true ∧
      (parseRules t flairs).allows_links_in_profile_only = some true) := by
  cases h : linkTest2 t <;>
    simp [clientParseRules, parseRules, h]

/-- C10 witness: the empty rules text does not match the profile pattern
and its parsed output carries no profile-only value. -/
theorem profile_only_field_spec_witness :
    (clientParseRules "").allows_links_in_profile_only = none ∧
    (parseRules "" []).allows_links_in_profile_only = none :=
  (profile_only_field_spec "" []).1 rfl

/-- C3: for every non-empty post sample, the median is the element at
index `⌊n / 2⌋` of the scores sorted ascending — stated against any
ascending-sorted rearrangement `l` of the scores, so the property does
not depend on which sorting algorithm models `Array.prototype.sort`. -/
theorem median_upvotes_spec (posts : List JPost) (l : List Int)
    (hne : posts ≠ [])
    (hperm : l.Perm (posts.map (·.score)))
    (hsort : l.Sorted (· ≤ ·)) :
    (calculateEngagement posts).median_upvotes =
      ((l.getD (posts.length / 2) 0 : ℤ) : ℚ) := by
  have hlen : (posts.map (·.score)).length > 0 := by
    simpa [List.length_pos] using hne
  have hsortEq : (posts.map (·.score)).insertionSort (· ≤ ·) = l :=
    List.eq_of_perm_of_sorted
      ((List.perm_insertionSort _ _).trans hperm.symm)
      (List.sorted_insertionSort _ _) hsort
  have hlen' : posts.length > 0 := by simpa using hlen
  simp only [calculateEngagement, hlen, if_pos, List.length_map, hsortEq]
  rw [if_pos hlen']

/-- C3 witness: for the spec scenario scores `[10, 20, 30]` (comment
counts `[2, 4, 6]`), the median is the element at index
`⌊3 / 2⌋ = 1` of the ascending sort, namely 20. -/
theorem median_upvotes_spec_witness :
    (calculateEngagement [⟨10, 2⟩, ⟨20, 4⟩, ⟨30, 6⟩]).median_upvotes =
      ((20 : ℤ) : ℚ) := by
  have h := median_upvotes_spec [⟨10, 2⟩, ⟨20, 4⟩, ⟨30, 6⟩] [10, 20, 30]
    (by decide) (by decide) (by decide)
  simpa using h

/-- Keys pairwise distinct in an association list determine entries:
two members with the same key are equal. -/
theorem eq_of_fst_eq_of_nodup {α β : Type} (l : List (α × β))
    (h : (l.map Prod.fst).Nodup) {p q : α × β}
    (hp : p ∈ l) (hq : q ∈ l) (hfst : p.1 = q.1) : p = q := by
  induction l with
  | nil => cases hp
  | cons e t ih =>
    simp only [List.map_cons, List.nodup_cons] at h
    rcases List.mem_cons.mp hp with hp1 | hp1 <;>
      rcases List.mem_cons.mp hq with hq1 | hq1
    · rw [hp1, hq1]
    · exfalso
      apply h.1
      have h2 : e.1 = q.1 := by rw [← hp1]; exact hfst
      rw [h2]
      exact List.mem_map_of_mem Prod.fst hq1
    · exfalso
      apply h.1
      have h2 : e.1 = p.1 := by rw [← hq1]; exact hfst.symm
      rw [h2]
      exact List.mem_map_of_mem Prod.fst hp1
    · exact ih h.2 hp1 hq1

/-- The 17 niche-tag keys are pairwise distinct. -/
theorem nicheKeywords_keys_nodup : (nicheKeywords.map Prod.fst).Nodup := by
  decide

/-- None of the niche-tag keys is the fallback tag `"general"`. -/
theorem nicheKeywords_keys_ne_general :
    ∀ e ∈ nicheKeywords, e.1 ≠ "general" := by
  decide

/-- C7: the inferred tag list is never empty; a vocabulary tag is in the
output exactly when one of its keywords occurs as a plain substring of
the lower-cased "display name + description" text; and when no tag
matches, the output is exactly `["general"]`. -/
theorem niche_tags_spec (displayName : String) (desc : Option String) :
    inferNicheTags displayName desc ≠ [] ∧
    (∀ e ∈ nicheKeywords,
      (e.1 ∈ inferNicheTags displayName desc ↔
        tagMatches e.2 (nicheText displayName desc) = true)) ∧
    ((∀ e ∈ nicheKeywords,
        tagMatches e.2 (nicheText displayName desc) = false) →
      inferNicheTags displayName desc = ["general"]) := by
  have hmem : ∀ e ∈ nicheKeywords,
      (e.1 ∈ matchedTags displayName desc ↔
        tagMatches e.2 (nicheText displayName desc) = true) := by
    intro e he
    constructor
    · intro hin
      obtain ⟨q, hq, hq1⟩ := List.mem_map.mp hin
      obtain ⟨hqmem, hqp⟩ := List.mem_filter.mp hq
      have hqe : q = e := eq_of_fst_eq_of_nodup _ nicheKeywords_keys_nodup
        hqmem he hq1
      rw [← hqe]; exact hqp
    · intro hp
      exact List.mem_map_of_mem Prod.fst (List.mem_filter.mpr ⟨he, hp⟩)
  have hunfold : inferNicheTags displayName desc =
      if (matchedTags displayName desc).isEmpty then ["general"]
      else matchedTags displayName desc := rfl
  cases hE : (matchedTags displayName desc).isEmpty
  · have hne : matchedTags displayName desc ≠ [] := by
      intro h0
      rw [h0] at hE
      cases hE
    refine ⟨?_, ?_, ?_⟩
    · rw [hunfold, hE]
      simpa using hne
    · intro e he
      rw [hunfold, hE]
      simpa using hmem e he
    · intro hforall
      exfalso
      apply hne
      rw [matchedTags, List.filter_eq_nil_iff.mpr, List.map_nil]
      intro e he
      simp [hforall e he]
  · have h0 : matchedTags displayName desc = [] := by
      rwa [List.isEmpty_iff] at hE
    refine ⟨?_, ?_, ?_⟩
    · rw [hunfold, hE]
      simp
    · intro e he
      rw [hunfold, hE]
      simp only [if_pos]
      constructor
      · intro hg
        exact absurd (List.mem_singleton.mp hg)
          (nicheKeywords_keys_ne_general e he)
      · intro hp
        exact absurd ((hmem e he).mpr hp) (by simp [h0])
    · intro _
      rw [hunfold, hE]
      rfl

/-- C7 witness: the text `"xyzq"` (no description) matches no keyword, so
the output collapses to exactly `["general"]`. -/
theorem niche_tags_spec_witness :
    inferNicheTags "xyzq" none = ["general"] :=
  (niche_tags_spec "xyzq" none).2.2 (by decide)

/-- C8: the summary is the newline-join of the ordered requirement lines
(`summaryParts` lists them in the fixed source order karma → account age
→ verification → posting limit → link restriction → flair); when no line
is produced the summary is the literal `"No special requirements found"`;
and the spec scenario text yields exactly the three expected lines in
order. -/
theorem rules_summary_spec :
    (∀ r : Requirements, summaryParts r = [] →
      generateRulesSummary r = "No special requirements found") ∧
    (∀ r : Requirements, summaryParts r ≠ [] →
      generateRulesSummary r = String.intercalate "\n" (summaryParts r)) ∧
    summaryParts (parseRules
        "You need 500 combined karma and your account must be 30 days old. Verification required."
        []) =
      ["Need 500 karma", "Account must be 30+ days old",
        "Verification required"] := by
  refine ⟨?_, ?_, ?_⟩
  · intro r h
    simp [generateRulesSummary, h]
  · intro r h
    simp [generateRulesSummary, h]
  · decide

/-- C8 witness: a rules text setting no requirement produces the literal
fallback summary. -/
theorem rules_summary_spec_witness :
    generateRulesSummary (parseRules "" []) =
      "No special requirements found" :=
  rules_summary_spec.1 (parseRules "" []) (by decide)

/-- Lemma: `pushEntry` adds `k` to the key set and keeps the other keys. -/
theorem mem_map_fst_pushEntry {κ β : Type} [DecidableEq κ]
    (ps : List (κ × List β)) (k : κ) (v : β) (k' : κ) :
    k' ∈ (pushEntry ps k v).map Prod.fst ↔ k' ∈ ps.map Prod.fst ∨ k' = k := by
  induction ps with
  | nil => simp [pushEntry]
  | cons e t ih =>
    obtain ⟨ke, ve⟩ := e
    by_cases h : k = ke
    · subst h
      simp [pushEntry]
      tauto
    · simp [pushEntry, h, ih]
      tauto

/-- Lemma: `pushEntry` never creates an empty value list. -/
theorem snd_ne_nil_pushEntry {κ β : Type} [DecidableEq κ]
    (ps : List (κ × List β)) (k : κ) (v : β)
    (h : ∀ e ∈ ps, e.2 ≠ []) :
    ∀ e ∈ pushEntry ps k v, e.2 ≠ [] := by
  induction ps with
  | nil =>
    intro e he
    simp [pushEntry] at he
    simp [he]
  | cons hd t ih =>
    intro e he
    obtain ⟨kh, vh⟩ := hd
    rw [pushEntry] at he
    by_cases hk : k = kh
    · rw [if_pos hk] at he
      rcases List.mem_cons.mp he with h1 | h1
      · simp [h1]
      · exact h e (List.mem_cons_of_mem _ h1)
    · rw [if_neg hk] at he
      rcases List.mem_cons.mp he with h1 | h1
      · rw [h1]
        exact h (kh, vh) (List.mem_cons_self _ _)
      · exact ih (fun e' he' => h e' (List.mem_cons_of_mem _ he')) e h1

/-- Keys of a `pushEntry` fold: exactly the starting keys plus the keys
of the folded items. -/
theorem keys_foldl_pushEntry {κ β γ : Type} [DecidableEq κ]
    (key : γ → κ) (val : γ → β) (l : List γ) :
    ∀ (acc : List (κ × List β)) (k : κ),
      (k ∈ ((l.foldl (fun a x => pushEntry a (key x) (val x)) acc).map
          Prod.fst) ↔
        k ∈ acc.map Prod.fst ∨ ∃ x ∈ l, key x = k) := by
  induction l with
  | nil =>
    intro acc k
    simp
  | cons x t ih =>
    intro acc k
    rw [List.foldl_cons, ih, mem_map_fst_pushEntry]
    constructor
    · rintro (⟨h | h⟩ | ⟨y, hy, hky⟩)
      · exact Or.inl h
      · exact Or.inr ⟨x, List.mem_cons_self _ _, h.symm⟩
      · exact Or.inr ⟨y, List.mem_cons_of_mem _ hy, hky⟩
    · rintro (h | ⟨y, hy, hky⟩)
      · exact Or.inl (Or.inl h)
      · rcases List.mem_cons.mp hy with h1 | h1
        · subst h1
          exact Or.inl (Or.inr hky.symm)
        · exact Or.inr ⟨y, h1, hky⟩

/-- A `pushEntry` fold preserves "no empty value list". -/
theorem snd_ne_nil_foldl {κ β γ : Type} [DecidableEq κ]
    (key : γ → κ) (val : γ → β) (l : List γ) :
    ∀ acc, (∀ e ∈ acc, e.2 ≠ []) →
      ∀ e ∈ l.foldl (fun a x => pushEntry a (key x) (val x)) acc,
        e.2 ≠ [] := by
  induction l with
  | nil =>
    intro acc h
    exact h
  | cons x t ih =>
    intro acc h
    rw [List.foldl_cons]
    exact ih _ (snd_ne_nil_pushEntry _ _ _ h)

/-- Lemma: `List.lookup` succeeds exactly on the keys of the association list. -/
theorem lookup_isSome_iff {κ β : Type} [BEq κ] [LawfulBEq κ]
    (l : List (κ × β)) (d : κ) :
    (l.lookup d).isSome = true ↔ d ∈ l.map Prod.fst := by
  induction l with
  | nil => simp [List.lookup]
  | cons e t ih =>
    obtain ⟨k, v⟩ := e
    by_cases h : d = k
    · subst h
      simp [List.lookup]
    · have hb : (d == k) = false := by simp [h]
      simp [List.lookup, hb, ih, h]

/-- A successful `List.lookup` returns a member entry. -/
theorem lookup_some_mem {κ β : Type} [BEq κ] [LawfulBEq κ]
    (l : List (κ × β)) (d : κ) :
    ∀ v, l.lookup d = some v → (d, v) ∈ l := by
  induction l with
  | nil =>
    intro v h
    cases h
  | cons e t ih =>
    intro v h
    obtain ⟨k, w⟩ := e
    cases hbeq : d == k
    · simp only [List.lookup, hbeq] at h
      exact List.mem_cons_of_mem _ (ih v h)
    · have hdk : d = k := eq_of_beq hbeq
      subst hdk
      simp only [List.lookup, hbeq, Option.some.injEq] at h
      rw [h]
      exact List.mem_cons_self _ _

/-- Looking up after a key-preserving value map is mapping after looking
up. -/
theorem lookup_map_snd {κ α β : Type} [BEq κ]
    (l : List (κ × α)) (g : α → β) (d : κ) :
    (l.map (fun e => (e.1, g e.2))).lookup d = (l.lookup d).map g := by
  induction l with
  | nil => rfl
  | cons e t ih =>
    obtain ⟨k, v⟩ := e
    rw [List.map_cons, List.lookup, List.lookup]
    cases d == k <;> simp [ih]

/-- The days keyed in `dayGroups` are exactly the days of the sample. -/
theorem mem_keys_dayGroups (posts : List TPost) (d : Fin 7) :
    d ∈ (dayGroups posts).map Prod.fst ↔ ∃ p ∈ posts, p.day = d := by
  rw [dayGroups, keys_foldl_pushEntry]
  simp only [List.map_nil, List.not_mem_nil, false_or]
  constructor
  · rintro ⟨e, he, hd⟩
    have hkey : e.1 ∈ (performanceByTime posts).map Prod.fst :=
      List.mem_map_of_mem _ he
    rw [performanceByTime, keys_foldl_pushEntry] at hkey
    simp only [List.map_nil, List.not_mem_nil, false_or] at hkey
    obtain ⟨p, hp, hpe⟩ := hkey
    refine ⟨p, hp, ?_⟩
    have : p.day = e.1.1 := congrArg Prod.fst hpe
    rw [this, hd]
  · rintro ⟨p, hp, hd⟩
    have hkey : (p.day, p.hour) ∈ (performanceByTime posts).map Prod.fst := by
      rw [performanceByTime, keys_foldl_pushEntry]
      exact Or.inr ⟨p, hp, rfl⟩
    obtain ⟨e, he, hee⟩ := List.mem_map.mp hkey
    refine ⟨e, he, ?_⟩
    have : e.1.1 = p.day := congrArg Prod.fst hee
    rw [this, hd]

/-- Every per-day record list in `dayGroups` is non-empty. -/
theorem dayGroups_snd_ne_nil (posts : List TPost) :
    ∀ e ∈ dayGroups posts, e.2 ≠ [] :=
  snd_ne_nil_foldl _ _ (performanceByTime posts) [] (by simp)

/-- C6: a day is a key of the best-posting-times mapping iff some post of
the sample falls on it (no day maps to an empty list), and each present
day maps to at most 3 hours — the leading hours of a descending-by-mean
ordering of that day's `(hour, mean score)` records. -/
theorem best_posting_times_spec (posts : List TPost) (d : Fin 7) :
    (((analyzeBestPostingTimes posts).lookup d).isSome = true ↔
      ∃ p ∈ posts, p.day = d) ∧
    (∀ hs, (analyzeBestPostingTimes posts).lookup d = some hs →
      hs ≠ [] ∧ hs.length ≤ 3 ∧
      ∃ l : List (Nat × ℚ), l.Perm (dayMeans posts d) ∧
        l.Sorted byScoreDesc ∧ hs = (l.take 3).map Prod.fst) := by
  have hmap : (analyzeBestPostingTimes posts).lookup d =
      ((dayGroups posts).lookup d).map topHours :=
    lookup_map_snd (dayGroups posts) topHours d
  constructor
  · rw [hmap, Option.isSome_map', lookup_isSome_iff, mem_keys_dayGroups]
  · intro hs h
    rw [hmap] at h
    obtain ⟨es, hes, hhs⟩ := Option.map_eq_some'.mp h
    have hesne : es ≠ [] :=
      dayGroups_snd_ne_nil posts (d, es) (lookup_some_mem _ _ _ hes)
    have hdm : dayMeans posts d = es := by
      rw [dayMeans, hes]
      rfl
    have hsortne : es.insertionSort byScoreDesc ≠ [] := by
      intro h0
      apply hesne
      have hp := List.perm_insertionSort byScoreDesc es
      rw [h0] at hp
      exact (hp.symm).eq_nil
    refine ⟨?_, ?_, es.insertionSort byScoreDesc, ?_, ?_, ?_⟩
    · rw [← hhs, topHours]
      cases hsort : es.insertionSort byScoreDesc with
      | nil => exact absurd hsort hsortne
      | cons a t => simp
    · rw [← hhs, topHours]
      simp only [List.length_map, List.length_take]
      exact min_le_left _ _
    · rw [hdm]
      exact List.perm_insertionSort byScoreDesc es
    · exact List.sorted_insertionSort byScoreDesc es
    · rw [← hhs]
      rfl

/-- C6 witness: a one-post sample on day 0, hour 10 — the mapping has the
day, with the non-empty, ≤3-element hour list `[10]` arising as the top
of a sorted ordering of that day's records. -/
theorem best_posting_times_spec_witness :
    ((analyzeBestPostingTimes [⟨0, 10, 100⟩]).lookup 0).isSome = true ∧
    ([10] ≠ [] ∧ [10].length ≤ 3 ∧
      ∃ l : List (Nat × ℚ), l.Perm (dayMeans [⟨0, 10, 100⟩] 0) ∧
        l.Sorted byScoreDesc ∧ [10] = (l.take 3).map Prod.fst) := by
  constructor
  · exact (best_posting_times_spec [⟨0, 10, 100⟩] 0).1.mpr
      ⟨⟨0, 10, 100⟩, by simp, rfl⟩
  · exact (best_posting_times_spec [⟨0, 10, 100⟩] 0).2 [10] rfl

end SimpSniper
